import Mathlib

/-!
Verification of the slack-decisiontree repository.

The repository stores decision trees in four relational tables
(`decision_trees`, `tree_nodes`, `node_options`, `edit_tokens`, declared in
src/db/schema.ts) and serves two surfaces over them: Slack interaction
handlers and a tokenized web-editor HTTP API (both in
src/app/api/[[...route]]/route.ts, rendering helpers in src/lib/blocks.ts).

We embed the store as lists of rows (list order is the row order the
database returns for an unordered SELECT, which for this model is insertion
order) and the relevant handlers as pure functions from a store and request
parameters to a result and an updated store.  Ids are strings (UUIDs in the
source); JavaScript truthiness tests on nullable string columns
(`filter(Boolean)`, `x || null`, `if (option.nextNodeId)`) are modelled
explicitly: `null` and the empty string are falsy.
-/

namespace DecisionTree

/-- A row of `tree_nodes` (src/db/schema.ts lines 24-34).  Timestamp and
`parentNodeId` columns are omitted: no code path inspected by the claims
reads them.  `orderIndex` is the text column `order_index`. -/
structure TreeNode where
  id : String
  treeId : String
  nodeType : String
  title : String
  content : Option String
  orderIndex : String
deriving DecidableEq, Repr

/-- A row of `node_options` (src/db/schema.ts lines 36-43).  `nextNodeId`
is the nullable weak reference to another node. -/
structure NodeOption where
  id : String
  nodeId : String
  label : String
  nextNodeId : Option String
  orderIndex : String
deriving DecidableEq, Repr

/-- A row of `edit_tokens`: the bearer token string, the tree it scopes,
and its expiry instant (timestamps modelled as integers). -/
structure EditToken where
  token : String
  treeId : String
  expiresAt : Int
deriving DecidableEq, Repr

/-- The persistent store: the three tables the claims touch.  List order is
insertion order (inserts append). -/
structure Store where
  nodes : List TreeNode
  options : List NodeOption
  tokens : List EditToken
deriving DecidableEq, Repr

/-- JavaScript truthiness of a nullable string column: `null` and `""` are
falsy, every other string truthy. -/
def truthy : Option String → Bool
  | none => false
  | some s => !(s == "")

/-- Models `x || null` applied to a nullable string (route.ts lines 930,
1079, 1408, 1507, 1552): falsy values collapse to `null`. -/
def truthyOpt : Option String → Option String
  | none => none
  | some s => if s == "" then none else some s

/-- The referenced-node set of root inference (route.ts lines 74-80 and
1184-1190): `allOptions.map(opt => opt.nextNodeId).filter(Boolean)`.  Every
non-null, non-empty `nextNodeId` value, over ALL options in the store (the
query has no tree filter). -/
def referencedNodeIds (allOptions : List NodeOption) : List String :=
  ((allOptions.map (fun o => o.nextNodeId)).filterMap (fun x => x)).filter
    (fun s => !(s == ""))

/-- The nodes of one tree, in store order: `db.select().from(treeNodes)
.where(eq(treeNodes.treeId, treeId))`. -/
def treeNodesOf (store : Store) (treeId : String) : List TreeNode :=
  store.nodes.filter (fun n => n.treeId == treeId)

/-- The options of one node, in store order: `db.select().from(nodeOptions)
.where(eq(nodeOptions.nodeId, nodeId))`.  The source query has no ORDER BY
clause. -/
def optionsByNode (store : Store) (nodeId : String) : List NodeOption :=
  store.options.filter (fun o => o.nodeId == nodeId)

/-- The root candidates of a tree: its nodes whose id is not in the
referenced-node set.  `runTree` starts at the first of these. -/
def rootCandidates (store : Store) (treeId : String) : List TreeNode :=
  (treeNodesOf store treeId).filter
    (fun n => !((referencedNodeIds store.options).contains n.id))

/-- A button of an `actions` block (blocks.ts lines 89-97): its label, its
`action_id` and its `value` (both carry the option id). -/
structure ActionButton where
  label : String
  actionId : String
  value : String
deriving DecidableEq, Repr

/-- The Slack block kinds produced by buildDecisionView / buildAnswerView
(src/lib/blocks.ts): a mrkdwn section, a mrkdwn context line, or an actions
block of buttons.  Buttons are the only actionable controls. -/
inductive Block where
  | sectionBlock (text : String)
  | contextBlock (text : String)
  | actionsBlock (elements : List ActionButton)
deriving DecidableEq, Repr

/-- src/lib/blocks.ts lines 72-102: a section with the node title and
content, then - only when the option list is non-empty - one actions block
with a button per option, in the order the option list was given, each
button carrying the option id as `action_id` suffix and `value`. -/
def buildDecisionView (node : TreeNode) (options : List NodeOption) : List Block :=
  let blocks := [Block.sectionBlock ("*" ++ node.title ++ "*\n" ++ node.content.getD "")]
  if options.length > 0 then
    blocks ++ [Block.actionsBlock (options.map (fun o =>
      { label := o.label, actionId := "option_" ++ o.id, value := o.id }))]
  else
    blocks

/-- src/lib/blocks.ts lines 104-123: a section with title and content and a
context line with the completed marker; no actions block. -/
def buildAnswerView (node : TreeNode) : List Block :=
  [Block.sectionBlock ("*" ++ node.title ++ "*\n" ++ node.content.getD ""),
   Block.contextBlock "✅ Decision tree completed"]

/-- The values carried by the actionable controls of a view, in render
order: the `value` of every button of every actions block. -/
def viewActionValues (blocks : List Block) : List String :=
  (blocks.map (fun b =>
    match b with
    | Block.actionsBlock elems => elems.map (fun e => e.value)
    | _ => [])).flatten

/-- Outcome of starting a run (route.ts lines 1159-1235, and identically
lines 52-136 for the workflow step): the empty-tree failure message, the
could-not-find-a-starting-node failure message, or a started run showing
`root` rendered as `blocks`. -/
inductive StartResult where
  | noNodes
  | rootNotFound
  | started (root : TreeNode) (blocks : List Block)
deriving DecidableEq, Repr

/-- The run_tree handler (route.ts lines 1159-1235): load the tree's nodes;
if none, report the empty-tree error; otherwise take ALL options in the
store, build the referenced set, and pick the FIRST node of the tree not in
it via `.find`; if none exists report the starting-node error; otherwise
render the node (answer view, or decision view over the options whose
`nodeId` is the root's id, selected without any ORDER BY). -/
def runTree (store : Store) (treeId : String) : StartResult :=
  let allNodes := treeNodesOf store treeId
  if allNodes.isEmpty then
    StartResult.noNodes
  else
    match allNodes.find? (fun n => !((referencedNodeIds store.options).contains n.id)) with
    | none => StartResult.rootNotFound
    | some rootNode =>
      if rootNode.nodeType == "answer" then
        StartResult.started rootNode (buildAnswerView rootNode)
      else
        StartResult.started rootNode
          (buildDecisionView rootNode (optionsByNode store rootNode.id))

/-- `db.select().from(nodeOptions).where(eq(nodeOptions.id, optionId)).limit(1)`. -/
def findOption (store : Store) (optionId : String) : Option NodeOption :=
  store.options.find? (fun o => o.id == optionId)

/-- `db.select().from(treeNodes).where(eq(treeNodes.id, nodeId)).limit(1)`. -/
def findNode (store : Store) (nodeId : String) : Option TreeNode :=
  store.nodes.find? (fun n => n.id == nodeId)

/-- Outcome of the option_ selection handler (route.ts lines 1238-1303).
`noop`: the guard `if (option && option.nextNodeId)` failed, so the handler
issues no views.update and no chat.update - the rendered surface is left
unchanged.  `crash`: the handler read `nextNode.nodeType` with `nextNode`
undefined (line 1258), throwing a TypeError before any update is issued.
`update node blocks`: the surface (modal or message) is updated in place to
show `node` rendered as `blocks`. -/
inductive AdvanceResult where
  | noop
  | crash
  | update (node : TreeNode) (blocks : List Block)
deriving DecidableEq, Repr

/-- The option_ selection handler (route.ts lines 1238-1303): look the
option up by id; if absent or its `nextNodeId` is falsy, do nothing.
Otherwise look the target node up by id - the source dereferences it with
no existence check, so a missing target is a crash.  An answer target
renders the answer view; any other target renders the decision view over
the options whose `nodeId` is the target's id (selected without ORDER BY,
i.e. in store order). -/
def advance (store : Store) (optionId : String) : AdvanceResult :=
  match findOption store optionId with
  | none => AdvanceResult.noop
  | some opt =>
    match opt.nextNodeId with
    | none => AdvanceResult.noop
    | some nid =>
      if nid == "" then AdvanceResult.noop
      else
        match findNode store nid with
        | none => AdvanceResult.crash
        | some nextNode =>
          if nextNode.nodeType == "answer" then
            AdvanceResult.update nextNode (buildAnswerView nextNode)
          else
            AdvanceResult.update nextNode
              (buildDecisionView nextNode (optionsByNode store nextNode.id))

/-- HTTP status of a web-editor endpoint response: 200, 401 (invalid or
expired token) or 404 (entity missing or owned by another tree). -/
inductive HttpStatus where
  | ok
  | unauthorized
  | notFound
deriving DecidableEq, Repr

/-- validateToken (route.ts lines 1309-1322): look up a row whose `token`
column equals the presented token AND whose `expiresAt` is strictly greater
than now (`gt(editTokens.expiresAt, new Date())`). -/
def validateToken (store : Store) (token : String) (now : Int) : Option EditToken :=
  store.tokens.find? (fun t => t.token == token && decide (now < t.expiresAt))

/-- POST /editor/:token/nodes (route.ts lines 1391-1413): validate the
token, then insert a node row for the token's tree with the body's
`nodeType`/`title`/`content` (content falsy-collapsed to null).  No
validation of `nodeType` is performed. -/
def postNodeEndpoint (store : Store) (token : String) (now : Int)
    (newId nodeType title : String) (content : Option String) :
    HttpStatus × Store :=
  match validateToken store token now with
  | none => (HttpStatus.unauthorized, store)
  | some editToken =>
    (HttpStatus.ok,
     { store with nodes := store.nodes ++
        [{ id := newId, treeId := editToken.treeId, nodeType := nodeType,
           title := title, content := truthyOpt content, orderIndex := "0" }] })

/-- PUT /editor/:token/nodes/:nodeId (route.ts lines 1416-1450): validate
the token, load the node, reject 404 unless it exists and its `treeId`
equals the token's, then update its type/title/content in place. -/
def putNodeEndpoint (store : Store) (token nodeId : String) (now : Int)
    (nodeType title : String) (content : Option String) :
    HttpStatus × Store :=
  match validateToken store token now with
  | none => (HttpStatus.unauthorized, store)
  | some editToken =>
    match findNode store nodeId with
    | none => (HttpStatus.notFound, store)
    | some node =>
      if node.treeId == editToken.treeId then
        (HttpStatus.ok,
         { store with nodes := store.nodes.map (fun n =>
            if n.id == nodeId then
              { n with nodeType := nodeType, title := title, content := content }
            else n) })
      else
        (HttpStatus.notFound, store)

/-- Deletion of a node row together with the cascade semantics declared on
the foreign keys in src/db/schema.ts lines 36-43: every option whose
`nodeId` references the node is deleted (`onDelete: 'cascade'`), and every
surviving option whose `nextNodeId` references it has that reference set to
null (`onDelete: 'set null'`). -/
def deleteNodeCascade (store : Store) (nodeId : String) : Store :=
  { store with
    nodes := store.nodes.filter (fun n => !(n.id == nodeId)),
    options := (store.options.filter (fun o => !(o.nodeId == nodeId))).map
      (fun o => if o.nextNodeId == some nodeId then { o with nextNodeId := none } else o) }

/-- DELETE /editor/:token/nodes/:nodeId (route.ts lines 1453-1476):
validate the token, check the node exists and belongs to the token's tree,
then delete it (the store cascades per the schema). -/
def deleteNodeEndpoint (store : Store) (token nodeId : String) (now : Int) :
    HttpStatus × Store :=
  match validateToken store token now with
  | none => (HttpStatus.unauthorized, store)
  | some editToken =>
    match findNode store nodeId with
    | none => (HttpStatus.notFound, store)
    | some node =>
      if node.treeId == editToken.treeId then
        (HttpStatus.ok, deleteNodeCascade store nodeId)
      else
        (HttpStatus.notFound, store)

/-- POST /editor/:token/nodes/:nodeId/options (route.ts lines 1479-1512):
validate the token, check the PATH node exists and belongs to the token's
tree, then insert the option row with the body's `label` and `nextNodeId`
(falsy-collapsed to null).  The body's `nextNodeId` itself is not looked up
or ownership-checked. -/
def postOptionEndpoint (store : Store) (token nodeId : String) (now : Int)
    (newId label : String) (nextNodeId : Option String) :
    HttpStatus × Store :=
  match validateToken store token now with
  | none => (HttpStatus.unauthorized, store)
  | some editToken =>
    match findNode store nodeId with
    | none => (HttpStatus.notFound, store)
    | some node =>
      if node.treeId == editToken.treeId then
        (HttpStatus.ok,
         { store with options := store.options ++
            [{ id := newId, nodeId := nodeId, label := label,
               nextNodeId := truthyOpt nextNodeId, orderIndex := "0" }] })
      else
        (HttpStatus.notFound, store)

/-- PUT /editor/:token/options/:optionId (route.ts lines 1515-1557):
validate the token, load the option, load its owning node, reject 404
unless the node exists in the token's tree, then update label and
`nextNodeId` (falsy-collapsed to null). -/
def putOptionEndpoint (store : Store) (token optionId : String) (now : Int)
    (label : String) (nextNodeId : Option String) :
    HttpStatus × Store :=
  match validateToken store token now with
  | none => (HttpStatus.unauthorized, store)
  | some editToken =>
    match findOption store optionId with
    | none => (HttpStatus.notFound, store)
    | some opt =>
      match findNode store opt.nodeId with
      | none => (HttpStatus.notFound, store)
      | some node =>
        if node.treeId == editToken.treeId then
          (HttpStatus.ok,
           { store with options := store.options.map (fun o =>
              if o.id == optionId then
                { o with label := label, nextNodeId := truthyOpt nextNodeId }
              else o) })
        else
          (HttpStatus.notFound, store)

/-- DELETE /editor/:token/options/:optionId (route.ts lines 1560-1593):
same lookups and ownership check as the update, then delete the option
row. -/
def deleteOptionEndpoint (store : Store) (token optionId : String) (now : Int) :
    HttpStatus × Store :=
  match validateToken store token now with
  | none => (HttpStatus.unauthorized, store)
  | some editToken =>
    match findOption store optionId with
    | none => (HttpStatus.notFound, store)
    | some opt =>
      match findNode store opt.nodeId with
      | none => (HttpStatus.notFound, store)
      | some node =>
        if node.treeId == editToken.treeId then
          (HttpStatus.ok,
           { store with options := store.options.filter (fun o => !(o.id == optionId)) })
        else
          (HttpStatus.notFound, store)

/-- An option-row insert as issued by either surface
(`db.insert(nodeOptions).values(...)`): append the row. -/
def addOptionRow (store : Store) (o : NodeOption) : Store :=
  { store with options := store.options ++ [o] }

/-- An option-row delete by id
(`db.delete(nodeOptions).where(eq(nodeOptions.id, optionId))`). -/
def deleteOptionRow (store : Store) (optionId : String) : Store :=
  { store with options := store.options.filter (fun o => !(o.id == optionId)) }

/-! ## General helper lemmas -/

/-- `List.find?` returns the head of the filtered list. -/
theorem find?_as_head_filter {α : Type} (p : α → Bool) (l : List α) :
    l.find? p = (l.filter p).head? := by
  induction l with
  | nil => rfl
  | cons a l ih =>
    cases h : p a with
    | true => simp only [List.find?_cons, List.filter_cons, h, if_true, List.head?_cons]
    | false => simp only [List.find?_cons, List.filter_cons, h, ih, Bool.false_eq_true, if_false]

/-! ## C1: root inference -/

/-- Concrete tree with two unreferenced nodes. -/
def c1n1 : TreeNode :=
  { id := "n1", treeId := "A", nodeType := "decision", title := "Q1",
    content := none, orderIndex := "0" }

def c1n2 : TreeNode :=
  { id := "n2", treeId := "A", nodeType := "decision", title := "Q2",
    content := none, orderIndex := "0" }

def c1Store : Store := { nodes := [c1n1, c1n2], options := [], tokens := [] }

/-- C1 counterexample: tree "A" holds two nodes and no options, so both
nodes are unreferenced root candidates; the claim demands the
RootNotFound("ambiguous") failure, but starting the run silently picks the
first candidate `c1n1` and renders it. -/
theorem C1_counterexample :
    (rootCandidates c1Store "A").length = 2 ∧
    runTree c1Store "A" = StartResult.started c1n1 (buildDecisionView c1n1 []) := by
  exact ⟨rfl, rfl⟩

/-- C1 (amended): starting a run reports the no-nodes failure exactly when
the tree has no nodes; it reports the starting-node failure exactly when
the tree is non-empty and every one of its nodes is referenced by some
option (zero candidates); and whenever at least one unreferenced candidate
exists it starts at the FIRST candidate in store order - also when more
than one candidate exists, rather than failing. -/
theorem C1_root_inference (store : Store) (treeId : String) :
    (treeNodesOf store treeId = [] → runTree store treeId = StartResult.noNodes) ∧
    (treeNodesOf store treeId ≠ [] → rootCandidates store treeId = [] →
      runTree store treeId = StartResult.rootNotFound) ∧
    (∀ r, (rootCandidates store treeId).head? = some r →
      r ∈ treeNodesOf store treeId ∧
      ((referencedNodeIds store.options).contains r.id) = false ∧
      ∃ blocks, runTree store treeId = StartResult.started r blocks) := by
  have hrun : runTree store treeId =
      (if (treeNodesOf store treeId).isEmpty then StartResult.noNodes
       else
         match (treeNodesOf store treeId).find?
             (fun n => !((referencedNodeIds store.options).contains n.id)) with
         | none => StartResult.rootNotFound
         | some rootNode =>
           if rootNode.nodeType == "answer" then
             StartResult.started rootNode (buildAnswerView rootNode)
           else
             StartResult.started rootNode
               (buildDecisionView rootNode (optionsByNode store rootNode.id))) := rfl
  refine ⟨?_, ?_, ?_⟩
  · intro h
    rw [hrun, h]
    rfl
  · intro h hc
    have hf : (treeNodesOf store treeId).find?
        (fun n => !((referencedNodeIds store.options).contains n.id)) = none := by
      rw [find?_as_head_filter]
      show (rootCandidates store treeId).head? = none
      rw [hc]
      rfl
    have hne : (treeNodesOf store treeId).isEmpty = false := by
      cases hl : treeNodesOf store treeId with
      | nil => exact absurd hl h
      | cons a t => rfl
    rw [hrun, hne, hf]
    rfl
  · intro r hr
    have hf : (treeNodesOf store treeId).find?
        (fun n => !((referencedNodeIds store.options).contains n.id)) = some r := by
      rw [find?_as_head_filter]
      exact hr
    have hmem : r ∈ treeNodesOf store treeId := List.mem_of_find?_eq_some hf
    have hp := List.find?_some hf
    have hne : (treeNodesOf store treeId).isEmpty = false := by
      cases hl : treeNodesOf store treeId with
      | nil =>
        rw [hl] at hmem
        exact absurd hmem (List.not_mem_nil r)
      | cons a t => rfl
    refine ⟨hmem, by simpa using hp, ?_⟩
    cases hab : r.nodeType == "answer" with
    | true =>
      refine ⟨buildAnswerView r, ?_⟩
      rw [hrun, hne, hf]
      show (if r.nodeType == "answer" then
              StartResult.started r (buildAnswerView r)
            else
              StartResult.started r (buildDecisionView r (optionsByNode store r.id))) =
        StartResult.started r (buildAnswerView r)
      rw [hab]
      rfl
    | false =>
      refine ⟨buildDecisionView r (optionsByNode store r.id), ?_⟩
      rw [hrun, hne, hf]
      show (if r.nodeType == "answer" then
              StartResult.started r (buildAnswerView r)
            else
              StartResult.started r (buildDecisionView r (optionsByNode store r.id))) =
        StartResult.started r (buildDecisionView r (optionsByNode store r.id))
      rw [hab]
      rfl

/-- One-node tree for the C1 witness. -/
def c1wNode : TreeNode :=
  { id := "w1", treeId := "T", nodeType := "answer", title := "Done",
    content := some "done", orderIndex := "0" }

def c1wStore : Store := { nodes := [c1wNode], options := [], tokens := [] }

/-- Two-node two-cycle tree for the C1 witness (zero candidates). -/
def c1cycStore : Store :=
  { nodes :=
      [{ id := "a", treeId := "C", nodeType := "decision", title := "a",
         content := none, orderIndex := "0" },
       { id := "b", treeId := "C", nodeType := "decision", title := "b",
         content := none, orderIndex := "0" }],
    options :=
      [{ id := "oa", nodeId := "a", label := "x", nextNodeId := some "b",
         orderIndex := "0" },
       { id := "ob", nodeId := "b", label := "y", nextNodeId := some "a",
         orderIndex := "0" }],
    tokens := [] }

/-- Witness for C1_root_inference at concrete inputs: an absent tree id
gives the no-nodes failure, a 2-cycle gives the starting-node failure, and
a one-node tree starts at that node. -/
theorem C1_witness :
    runTree c1wStore "other" = StartResult.noNodes ∧
    runTree c1cycStore "C" = StartResult.rootNotFound ∧
    c1wNode ∈ treeNodesOf c1wStore "T" ∧
    ((referencedNodeIds c1wStore.options).contains c1wNode.id) = false := by
  have h3 := (C1_root_inference c1wStore "T").2.2 c1wNode (by decide)
  exact ⟨(C1_root_inference c1wStore "other").1 (by decide),
         (C1_root_inference c1cycStore "C").2.1 (by decide) (by decide),
         h3.1, h3.2.1⟩

/-! ## C2: cross-tree option creation via the tokenized API -/

/-- Node of tree "A" for the C2 scenario. -/
def c2nA : TreeNode :=
  { id := "nA", treeId := "A", nodeType := "decision", title := "QA",
    content := none, orderIndex := "0" }

/-- Node of a different tree "B". -/
def c2nB : TreeNode :=
  { id := "nB", treeId := "B", nodeType := "answer", title := "AB",
    content := none, orderIndex := "0" }

/-- Unexpired edit token scoped to tree "A". -/
def c2tok : EditToken := { token := "tokA", treeId := "A", expiresAt := 100 }

def c2Store : Store := { nodes := [c2nA, c2nB], options := [], tokens := [c2tok] }

/-- C2 counterexample: with the valid token for tree "A", creating an
option on node "nA" of tree "A" whose body `nextNodeId` is node "nB" of
tree "B" is NOT rejected: the response is 200 and the cross-tree option row
is inserted. -/
theorem C2_counterexample :
    c2nB.treeId ≠ c2tok.treeId ∧
    postOptionEndpoint c2Store "tokA" "nA" 0 "o1" "go" (some "nB") =
      (HttpStatus.ok,
       { c2Store with options :=
          [{ id := "o1", nodeId := "nA", label := "go", nextNodeId := some "nB",
             orderIndex := "0" }] }) := by
  exact ⟨by decide, by decide⟩

/-- C2 (amended): the option-creation endpoint ownership-checks only the
PATH node: with a valid token and a path node in the token's tree, the
request succeeds and inserts the row with the body's `nextNodeId` (falsy
collapsed to null) whatever tree that target belongs to - no lookup or tree
check of `nextNodeId` is performed; the 404 is returned only when the path
node is missing or owned by another tree. -/
theorem C2_option_creation (store : Store) (token nodeId : String) (now : Int)
    (newId label : String) (nextNodeId : Option String)
    (et : EditToken) (node : TreeNode)
    (hv : validateToken store token now = some et)
    (hn : findNode store nodeId = some node) :
    (node.treeId = et.treeId →
      postOptionEndpoint store token nodeId now newId label nextNodeId =
        (HttpStatus.ok,
         { store with options := store.options ++
            [{ id := newId, nodeId := nodeId, label := label,
               nextNodeId := truthyOpt nextNodeId, orderIndex := "0" }] })) ∧
    (node.treeId ≠ et.treeId →
      postOptionEndpoint store token nodeId now newId label nextNodeId =
        (HttpStatus.notFound, store)) := by
  constructor
  · intro ho
    simp [postOptionEndpoint, hv, hn, ho]
  · intro ho
    simp [postOptionEndpoint, hv, hn, ho]

/-- Witness for C2_option_creation at the concrete cross-tree input. -/
theorem C2_witness :
    postOptionEndpoint c2Store "tokA" "nA" 0 "o1" "go" (some "nB") =
      (HttpStatus.ok,
       { c2Store with options := c2Store.options ++
          [{ id := "o1", nodeId := "nA", label := "go",
             nextNodeId := truthyOpt (some "nB"), orderIndex := "0" }] }) :=
  (C2_option_creation c2Store "tokA" "nA" 0 "o1" "go" (some "nB") c2tok c2nA
    (by decide) (by decide)).1 (by decide)

/-! ## C3: stale weak reference in advance -/

def c3n1 : TreeNode :=
  { id := "n1", treeId := "T", nodeType := "decision", title := "Q",
    content := none, orderIndex := "0" }

/-- Option whose target node id is absent from the store. -/
def c3opt : NodeOption :=
  { id := "o1", nodeId := "n1", label := "go", nextNodeId := some "ghost",
    orderIndex := "0" }

def c3Store : Store := { nodes := [c3n1], options := [c3opt], tokens := [] }

/-- C3 counterexample: option "o1" targets node id "ghost" which is absent
from the node store; advancing does not take a NodeMissing error branch (no
such branch exists in the handler) - it dereferences the missing node's
`nodeType` and crashes. -/
theorem C3_counterexample :
    advance c3Store "o1" = AdvanceResult.crash := by decide

/-- C3 (amended): for every option whose truthy `nextNodeId` is absent from
the node store, the handler reads `nextNode.nodeType` from the missing row
and throws - the `crash` outcome; there is no NodeMissing error branch and
no view or message update is issued. -/
theorem C3_stale_reference (store : Store) (optionId nid : String) (opt : NodeOption)
    (h1 : findOption store optionId = some opt)
    (h2 : opt.nextNodeId = some nid)
    (h3 : nid ≠ "")
    (h4 : findNode store nid = none) :
    advance store optionId = AdvanceResult.crash := by
  simp [advance, h1, h2, h3, h4]

/-- Witness for C3_stale_reference at the concrete stale store. -/
theorem C3_witness : advance c3Store "o1" = AdvanceResult.crash :=
  C3_stale_reference c3Store "o1" "ghost" c3opt (by decide) (by decide)
    (by decide) (by decide)

/-! ## C8: null nextNodeId is a no-op -/

def c8opt : NodeOption :=
  { id := "o8", nodeId := "n8", label := "unterminated", nextNodeId := none,
    orderIndex := "0" }

def c8Store : Store := { nodes := [], options := [c8opt], tokens := [] }

/-- C8: advancing an option whose `nextNodeId` is null takes the handler's
falsy guard: no views.update and no chat.update is issued, so the rendered
surface (message or modal) is left unchanged. -/
theorem C8_null_next_noop (store : Store) (optionId : String) (opt : NodeOption)
    (h1 : findOption store optionId = some opt)
    (h2 : opt.nextNodeId = none) :
    advance store optionId = AdvanceResult.noop := by
  simp [advance, h1, h2]

/-- Witness for C8_null_next_noop at a concrete store. -/
theorem C8_witness : advance c8Store "o8" = AdvanceResult.noop :=
  C8_null_next_noop c8Store "o8" c8opt (by decide) (by decide)

/-! ## C9: advance into an answer node is terminal -/

def c9src : TreeNode :=
  { id := "q9", treeId := "T", nodeType := "decision", title := "Q9",
    content := none, orderIndex := "0" }

def c9ans : TreeNode :=
  { id := "a9", treeId := "T", nodeType := "answer", title := "Answer",
    content := some "All done", orderIndex := "0" }

def c9opt : NodeOption :=
  { id := "o9", nodeId := "q9", label := "pick", nextNodeId := some "a9",
    orderIndex := "0" }

def c9Store : Store := { nodes := [c9src, c9ans], options := [c9opt], tokens := [] }

/-- C9: advancing into an answer node updates the surface with the answer
view, which carries the node's title and content in its section, carries
the completed marker, and contains no actionable controls at all. -/
theorem C9_answer_terminal (store : Store) (optionId nid : String)
    (opt : NodeOption) (node : TreeNode)
    (h1 : findOption store optionId = some opt)
    (h2 : opt.nextNodeId = some nid)
    (h3 : nid ≠ "")
    (h4 : findNode store nid = some node)
    (h5 : node.nodeType = "answer") :
    advance store optionId = AdvanceResult.update node (buildAnswerView node) ∧
    viewActionValues (buildAnswerView node) = [] ∧
    Block.sectionBlock ("*" ++ node.title ++ "*\n" ++ node.content.getD "") ∈
      buildAnswerView node ∧
    Block.contextBlock "✅ Decision tree completed" ∈ buildAnswerView node := by
  refine ⟨by simp [advance, h1, h2, h3, h4, h5], rfl, ?_, ?_⟩
  · simp [buildAnswerView]
  · simp [buildAnswerView]

/-- Witness for C9_answer_terminal at the concrete store. -/
theorem C9_witness :
    advance c9Store "o9" = AdvanceResult.update c9ans (buildAnswerView c9ans) ∧
    viewActionValues (buildAnswerView c9ans) = [] ∧
    Block.sectionBlock ("*" ++ c9ans.title ++ "*\n" ++ c9ans.content.getD "") ∈
      buildAnswerView c9ans ∧
    Block.contextBlock "✅ Decision tree completed" ∈ buildAnswerView c9ans :=
  C9_answer_terminal c9Store "o9" "a9" c9opt c9ans (by decide) (by decide)
    (by decide) (by decide) (by decide)

/-! ## C4: advance into a decision node -/

/-- The action values of a decision view are exactly the ids of the options
given, in the order given. -/
theorem viewActionValues_buildDecisionView (node : TreeNode) (options : List NodeOption) :
    viewActionValues (buildDecisionView node options) = options.map (fun o => o.id) := by
  cases options with
  | nil => rfl
  | cons a l => simp [buildDecisionView, viewActionValues]

def c4entry : TreeNode :=
  { id := "e", treeId := "T", nodeType := "decision", title := "E",
    content := none, orderIndex := "0" }

def c4n : TreeNode :=
  { id := "n", treeId := "T", nodeType := "decision", title := "Q",
    content := none, orderIndex := "0" }

def c4sel : NodeOption :=
  { id := "sel", nodeId := "e", label := "go", nextNodeId := some "n",
    orderIndex := "0" }

/-- Option stored first, with the larger orderIndex. -/
def c4o1 : NodeOption :=
  { id := "o1", nodeId := "n", label := "B", nextNodeId := none,
    orderIndex := "1" }

/-- Option stored second, with the smaller orderIndex. -/
def c4o2 : NodeOption :=
  { id := "o2", nodeId := "n", label := "A", nextNodeId := none,
    orderIndex := "0" }

def c4Store : Store :=
  { nodes := [c4entry, c4n], options := [c4sel, c4o1, c4o2], tokens := [] }

/-- C4 counterexample: advancing into decision node "n" renders its two
options in store order "o1" (orderIndex "1") then "o2" (orderIndex "0") -
descending orderIndex - because the source query has no ORDER BY clause. -/
theorem C4_counterexample :
    advance c4Store "sel" =
      AdvanceResult.update c4n (buildDecisionView c4n [c4o1, c4o2]) ∧
    viewActionValues (buildDecisionView c4n [c4o1, c4o2]) = ["o1", "o2"] ∧
    c4o1.orderIndex = "1" ∧ c4o2.orderIndex = "0" := by decide

/-- C4 (amended): advancing into a decision node renders controls that
match EXACTLY the set of options whose `nodeId` is that node's id, each
carrying the option's id - but in store (insertion) order, not sorted by
`orderIndex`: the select has no ORDER BY. -/
theorem C4_decision_view (store : Store) (optionId nid : String)
    (opt : NodeOption) (node : TreeNode)
    (h1 : findOption store optionId = some opt)
    (h2 : opt.nextNodeId = some nid)
    (h3 : nid ≠ "")
    (h4 : findNode store nid = some node)
    (h5 : node.nodeType = "decision") :
    advance store optionId =
      AdvanceResult.update node (buildDecisionView node (optionsByNode store node.id)) ∧
    viewActionValues (buildDecisionView node (optionsByNode store node.id)) =
      (optionsByNode store node.id).map (fun o => o.id) ∧
    (∀ oid, oid ∈ viewActionValues (buildDecisionView node (optionsByNode store node.id)) ↔
      ∃ o ∈ store.options, o.nodeId = node.id ∧ o.id = oid) := by
  refine ⟨by simp [advance, h1, h2, h3, h4, h5], viewActionValues_buildDecisionView .., ?_⟩
  intro oid
  rw [viewActionValues_buildDecisionView]
  simp [optionsByNode, List.mem_map, List.mem_filter, and_assoc]

/-- Witness for C4_decision_view at the concrete store. -/
theorem C4_witness :
    advance c4Store "sel" =
      AdvanceResult.update c4n (buildDecisionView c4n (optionsByNode c4Store c4n.id)) ∧
    viewActionValues (buildDecisionView c4n (optionsByNode c4Store c4n.id)) =
      (optionsByNode c4Store c4n.id).map (fun o => o.id) :=
  ⟨(C4_decision_view c4Store "sel" "n" c4sel c4n (by decide) (by decide)
      (by decide) (by decide) (by decide)).1,
   (C4_decision_view c4Store "sel" "n" c4sel c4n (by decide) (by decide)
      (by decide) (by decide) (by decide)).2.1⟩

/-! ## C5: create-node nodeType validation -/

def c5tok : EditToken := { token := "tok5", treeId := "A", expiresAt := 100 }

def c5Store : Store := { nodes := [], options := [], tokens := [c5tok] }

/-- C5 counterexample: nodeType "banana" is neither "decision" nor
"answer", yet the tokenized create-node request returns 200 and inserts
the row carrying it - no ValidationError is raised. -/
theorem C5_counterexample :
    ("banana" ≠ "decision" ∧ "banana" ≠ "answer") ∧
    postNodeEndpoint c5Store "tok5" 0 "n9" "banana" "T" none =
      (HttpStatus.ok,
       { c5Store with nodes :=
          [{ id := "n9", treeId := "A", nodeType := "banana", title := "T",
             content := none, orderIndex := "0" }] }) := by decide

/-- C5 (amended): the tokenized create-node endpoint performs no
validation of `nodeType`: whenever the token is valid, ANY string is
accepted and a node row carrying it is appended to the token's tree; the
only rejection is an invalid or expired token (401, no insert). -/
theorem C5_create_node (store : Store) (token : String) (now : Int)
    (newId nodeType title : String) (content : Option String) :
    (∀ et, validateToken store token now = some et →
      postNodeEndpoint store token now newId nodeType title content =
        (HttpStatus.ok,
         { store with nodes := store.nodes ++
            [{ id := newId, treeId := et.treeId, nodeType := nodeType,
               title := title, content := truthyOpt content, orderIndex := "0" }] })) ∧
    (validateToken store token now = none →
      postNodeEndpoint store token now newId nodeType title content =
        (HttpStatus.unauthorized, store)) := by
  constructor
  · intro et hv
    simp [postNodeEndpoint, hv]
  · intro hv
    simp [postNodeEndpoint, hv]

/-- Witness for C5_create_node at the concrete invalid nodeType. -/
theorem C5_witness :
    postNodeEndpoint c5Store "tok5" 0 "n9" "banana" "T" none =
      (HttpStatus.ok,
       { c5Store with nodes := c5Store.nodes ++
          [{ id := "n9", treeId := c5tok.treeId, nodeType := "banana",
             title := "T", content := truthyOpt none, orderIndex := "0" }] }) :=
  (C5_create_node c5Store "tok5" 0 "n9" "banana" "T" none).1 c5tok (by decide)

/-! ## C6: token expiry and cross-tree ownership -/

/-- C6: (a) when every stored row matching the presented token string has
`expiresAt ≤ now`, validation fails - an exact token match that is not
strictly in the future is Invalid; (b) with a valid token for tree A, the
node endpoints referencing a node of a different tree answer 404 and leave
the store unchanged; (c) likewise the option endpoints when the option's
owning node is in a different tree. -/
theorem C6_token_validation :
    (∀ (store : Store) (token : String) (now : Int),
      (∀ t ∈ store.tokens, t.token = token → t.expiresAt ≤ now) →
      validateToken store token now = none) ∧
    (∀ (store : Store) (token nodeId : String) (now : Int)
        (nodeType title : String) (content : Option String)
        (et : EditToken) (node : TreeNode),
      validateToken store token now = some et →
      findNode store nodeId = some node →
      node.treeId ≠ et.treeId →
      putNodeEndpoint store token nodeId now nodeType title content =
        (HttpStatus.notFound, store) ∧
      deleteNodeEndpoint store token nodeId now = (HttpStatus.notFound, store)) ∧
    (∀ (store : Store) (token optionId : String) (now : Int)
        (label : String) (nn : Option String)
        (et : EditToken) (opt : NodeOption) (onode : TreeNode),
      validateToken store token now = some et →
      findOption store optionId = some opt →
      findNode store opt.nodeId = some onode →
      onode.treeId ≠ et.treeId →
      putOptionEndpoint store token optionId now label nn =
        (HttpStatus.notFound, store) ∧
      deleteOptionEndpoint store token optionId now = (HttpStatus.notFound, store)) := by
  refine ⟨?_, ?_, ?_⟩
  · intro store token now h
    apply List.find?_eq_none.mpr
    intro t ht
    cases hq : t.token == token with
    | false => simp [hq]
    | true =>
      have hle := h t ht (by simpa using hq)
      simp only [hq, Bool.true_and, Bool.not_eq_true, decide_eq_false_iff_not]
      omega
  · intro store token nodeId now nodeType title content et node hv hn ho
    exact ⟨by simp [putNodeEndpoint, hv, hn, ho],
           by simp [deleteNodeEndpoint, hv, hn, ho]⟩
  · intro store token optionId now label nn et opt onode hv hopt hnode ho
    exact ⟨by simp [putOptionEndpoint, hv, hopt, hnode, ho],
           by simp [deleteOptionEndpoint, hv, hopt, hnode, ho]⟩

/-- Token for tree "A", expiring at time 10. -/
def c6tok : EditToken := { token := "tok6", treeId := "A", expiresAt := 10 }

def c6nA : TreeNode :=
  { id := "a6", treeId := "A", nodeType := "decision", title := "a6",
    content := none, orderIndex := "0" }

def c6nB : TreeNode :=
  { id := "b6", treeId := "B", nodeType := "decision", title := "b6",
    content := none, orderIndex := "0" }

/-- Option owned by tree-"B" node "b6". -/
def c6opt : NodeOption :=
  { id := "ob6", nodeId := "b6", label := "x", nextNodeId := none,
    orderIndex := "0" }

def c6Store : Store :=
  { nodes := [c6nA, c6nB], options := [c6opt], tokens := [c6tok] }

/-- Witness for C6_token_validation: at time 50 the exactly-matching token
is expired; at time 0 it is valid but all four endpoints reject tree-"B"
entities with 404 and no mutation. -/
theorem C6_witness :
    validateToken c6Store "tok6" 50 = none ∧
    putNodeEndpoint c6Store "tok6" "b6" 0 "decision" "t" none =
      (HttpStatus.notFound, c6Store) ∧
    deleteNodeEndpoint c6Store "tok6" "b6" 0 = (HttpStatus.notFound, c6Store) ∧
    putOptionEndpoint c6Store "tok6" "ob6" 0 "l" none =
      (HttpStatus.notFound, c6Store) ∧
    deleteOptionEndpoint c6Store "tok6" "ob6" 0 = (HttpStatus.notFound, c6Store) := by
  have h2 := C6_token_validation.2.1 c6Store "tok6" "b6" 0 "decision" "t" none
    c6tok c6nB (by decide) (by decide) (by decide)
  have h3 := C6_token_validation.2.2 c6Store "tok6" "ob6" 0 "l" none
    c6tok c6opt c6nB (by decide) (by decide) (by decide) (by decide)
  exact ⟨C6_token_validation.1 c6Store "tok6" 50 (by decide),
         h2.1, h2.2, h3.1, h3.2⟩

/-! ## C7: node deletion cascade -/

/-- C7: deleting a node (with the schema's cascade semantics) removes
exactly the node's row from the node table; afterwards no option is owned
by the deleted node and none references it; every option NOT owned by the
deleted node survives - unchanged when it did not reference the deleted
node, with `nextNodeId` nulled when it did; no option row appears that did
not come from a pre-existing row this way; and the token table is
untouched.  This holds for any graph shape, including a node that is its
own option's target. -/
theorem C7_delete_cascade (store : Store) (nodeId : String) :
    (∀ n, n ∈ (deleteNodeCascade store nodeId).nodes ↔
      n ∈ store.nodes ∧ n.id ≠ nodeId) ∧
    (∀ o ∈ (deleteNodeCascade store nodeId).options,
      o.nodeId ≠ nodeId ∧ o.nextNodeId ≠ some nodeId) ∧
    (∀ o ∈ store.options, o.nodeId ≠ nodeId →
      (o.nextNodeId = some nodeId →
        { o with nextNodeId := none } ∈ (deleteNodeCascade store nodeId).options) ∧
      (o.nextNodeId ≠ some nodeId →
        o ∈ (deleteNodeCascade store nodeId).options)) ∧
    (∀ o ∈ (deleteNodeCascade store nodeId).options,
      o ∈ store.options ∨
      ∃ p ∈ store.options, p.nextNodeId = some nodeId ∧
        o = { p with nextNodeId := none }) ∧
    (deleteNodeCascade store nodeId).tokens = store.tokens := by
  refine ⟨?_, ?_, ?_, ?_, rfl⟩
  · intro n
    simp [deleteNodeCascade, List.mem_filter]
  · intro o ho
    simp only [deleteNodeCascade, List.mem_map, List.mem_filter] at ho
    obtain ⟨p, ⟨hmem, hpne⟩, rfl⟩ := ho
    cases hq : p.nextNodeId == some nodeId with
    | true =>
      constructor
      · simp only [hq, if_true]
        simpa using hpne
      · simp [hq]
    | false =>
      constructor
      · simp only [hq, Bool.false_eq_true, if_false]
        simpa using hpne
      · simp only [hq, Bool.false_eq_true, if_false]
        simpa using hq
  · intro o ho hne
    constructor
    · intro htgt
      simp only [deleteNodeCascade, List.mem_map]
      refine ⟨o, List.mem_filter.mpr ⟨ho, by simp [hne]⟩, ?_⟩
      simp [htgt]
    · intro hnt
      simp only [deleteNodeCascade, List.mem_map]
      refine ⟨o, List.mem_filter.mpr ⟨ho, by simp [hne]⟩, ?_⟩
      simp [hnt]
  · intro o ho
    simp only [deleteNodeCascade, List.mem_map, List.mem_filter] at ho
    obtain ⟨p, ⟨hmem, hpne⟩, rfl⟩ := ho
    cases hq : p.nextNodeId == some nodeId with
    | true =>
      right
      exact ⟨p, hmem, by simpa using hq, by simp [hq]⟩
    | false =>
      left
      simp only [hq, Bool.false_eq_true, if_false]
      exact hmem

def c7n : TreeNode :=
  { id := "n7", treeId := "T", nodeType := "decision", title := "n7",
    content := none, orderIndex := "0" }

def c7m : TreeNode :=
  { id := "m7", treeId := "T", nodeType := "decision", title := "m7",
    content := none, orderIndex := "0" }

/-- Option of node "n7" whose target is "n7" itself (self-loop). -/
def c7self : NodeOption :=
  { id := "os", nodeId := "n7", label := "loop", nextNodeId := some "n7",
    orderIndex := "0" }

/-- Option of the surviving node "m7" referencing "n7". -/
def c7other : NodeOption :=
  { id := "op", nodeId := "m7", label := "to-n7", nextNodeId := some "n7",
    orderIndex := "0" }

def c7Store : Store :=
  { nodes := [c7n, c7m], options := [c7self, c7other], tokens := [] }

/-- Witness for C7_delete_cascade on the self-target store: the deleted
node leaves the node table, the surviving referencing option reappears with
`nextNodeId` nulled, and the tokens are untouched. -/
theorem C7_witness :
    (c7n ∈ (deleteNodeCascade c7Store "n7").nodes ↔
      c7n ∈ c7Store.nodes ∧ c7n.id ≠ "n7") ∧
    ({ c7other with nextNodeId := none } ∈ (deleteNodeCascade c7Store "n7").options) ∧
    (deleteNodeCascade c7Store "n7").tokens = c7Store.tokens := by
  have h := C7_delete_cascade c7Store "n7"
  exact ⟨h.1 c7n,
         (h.2.2.1 c7other (by decide) (by decide)).1 (by decide),
         h.2.2.2.2⟩

/-! ## C10: the referenced set of root inference is global across trees -/

/-- Membership in the referenced-node set: exactly the non-empty ids that
some option's `nextNodeId` carries. -/
theorem mem_referencedNodeIds (allOptions : List NodeOption) (x : String) :
    x ∈ referencedNodeIds allOptions ↔
      x ≠ "" ∧ ∃ o ∈ allOptions, o.nextNodeId = some x := by
  simp only [referencedNodeIds, List.mem_filter, List.mem_filterMap, List.mem_map]
  constructor
  · rintro ⟨⟨y, ⟨o, hmem, rfl⟩, hy⟩, hne⟩
    exact ⟨by simpa using hne, o, hmem, hy⟩
  · rintro ⟨hne, o, hmem, hy⟩
    exact ⟨⟨o.nextNodeId, ⟨o, hmem, rfl⟩, hy⟩, by simpa using hne⟩

/-- C10: the root-inference referenced set is computed from the options of
EVERY tree: inserting in tree B (≠ A) an option whose `nextNodeId` targets
a node of tree A removes that node from A's root candidates, and deleting
that option (its id being fresh) restores A's candidates exactly. -/
theorem C10_global_referenced (store : Store) (nA nB : TreeNode) (o : NodeOption)
    (hA : nA ∈ store.nodes) (hB : nB ∈ store.nodes)
    (hdiff : nB.treeId ≠ nA.treeId)
    (hown : o.nodeId = nB.id)
    (htgt : o.nextNodeId = some nA.id)
    (hne : nA.id ≠ "") :
    nA ∉ rootCandidates (addOptionRow store o) nA.treeId ∧
    ((∀ p ∈ store.options, p.id ≠ o.id) →
      rootCandidates (deleteOptionRow (addOptionRow store o) o.id) nA.treeId =
        rootCandidates store nA.treeId) := by
  constructor
  · intro hmem
    rw [rootCandidates, List.mem_filter] at hmem
    have h2 := hmem.2
    have h3 : nA.id ∈ referencedNodeIds (addOptionRow store o).options := by
      rw [mem_referencedNodeIds]
      exact ⟨hne, o, by simp [addOptionRow], htgt⟩
    simp at h2
    exact h2 h3
  · intro hfresh
    have hopts : (store.options ++ [o]).filter (fun p => !(p.id == o.id)) =
        store.options := by
      rw [List.filter_append]
      have h1 : store.options.filter (fun p => !(p.id == o.id)) = store.options :=
        List.filter_eq_self.mpr (fun p hp => by simp [hfresh p hp])
      have h2 : List.filter (fun p => !(p.id == o.id)) [o] = [] := by simp
      rw [h1, h2, List.append_nil]
    have hstore : deleteOptionRow (addOptionRow store o) o.id = store := by
      show Store.mk store.nodes
          ((store.options ++ [o]).filter (fun p => !(p.id == o.id)))
          store.tokens = store
      rw [hopts]
    rw [hstore]

def c10nA : TreeNode :=
  { id := "ra", treeId := "A", nodeType := "decision", title := "ra",
    content := none, orderIndex := "0" }

def c10nB : TreeNode :=
  { id := "rb", treeId := "B", nodeType := "decision", title := "rb",
    content := none, orderIndex := "0" }

/-- Option of tree-"B" node "rb" targeting tree-"A" node "ra". -/
def c10o : NodeOption :=
  { id := "ox", nodeId := "rb", label := "cross", nextNodeId := some "ra",
    orderIndex := "0" }

def c10Store : Store := { nodes := [c10nA, c10nB], options := [], tokens := [] }

/-- Witness for C10_global_referenced on the concrete two-tree store. -/
theorem C10_witness :
    c10nA ∉ rootCandidates (addOptionRow c10Store c10o) c10nA.treeId ∧
    rootCandidates (deleteOptionRow (addOptionRow c10Store c10o) c10o.id)
        c10nA.treeId =
      rootCandidates c10Store c10nA.treeId := by
  have h := C10_global_referenced c10Store c10nA c10nB c10o (by decide)
    (by decide) (by decide) (by decide) (by decide) (by decide)
  exact ⟨h.1, h.2 (by decide)⟩

end DecisionTree
